import Mathlib

/-!
Verification development for the `sciphi` embedding pipeline
(`sciphi/scripts/make_embeddings.py`).

The Python pipeline is shallowly embedded:
* numpy arrays become `NDArray`: a dtype tag, a shape, and the row-major
  element bit patterns (`Nat`, bounded by the dtype's width);
* the binary embeddings file is its list of bytes (`List Nat`, little-endian
  per element, `itemsize` bytes per element), exactly what
  `np.memmap(..., mode="w+")` followed by a full copy leaves on disk;
* the shape sidecar file holds the comma-separated dimensions.  The textual
  encoding `",".join(map(str, shape))` with parser
  `tuple(map(int, s.split(",")))` is a bijection on dimension lists, so the
  sidecar content is modelled as the list of dimensions itself;
* the gzipped JSONL metadata file holds one JSON object per line; since
  `json.dumps`/`json.loads` round-trip the dictionaries written here, the
  file is modelled as the list of `MetaEntry` values, one per line;
* pandas dataframe rows become `SentenceRow`, Python tuples become products,
  Python dicts become insertion-ordered association lists;
* fallible reads return `Except FetchError`.
-/

/-- Numpy dtype of an embedding array.  The pipeline only ever meets float
dtypes; what matters to the store is the item size and the fact that
`fetch_embedding_and_metadata` hard-codes `"float32"` on the read path. -/
inductive DType where
  | float32
  | float64
deriving DecidableEq, Repr

/-- Itemsize of a dtype, `np.dtype(...).itemsize`: bytes per element. -/
def DType.itemsize : DType → Nat
  | .float32 => 4
  | .float64 => 8

/-- A numpy array as the store sees it: dtype, shape, and the row-major
element bit patterns.  A well-formed array has `data.length = shape.prod`
and every pattern below `2 ^ (8 * dtype.itemsize)`; theorems take these as
hypotheses. -/
structure NDArray where
  dtype : DType
  shape : List Nat
  data : List Nat
deriving DecidableEq, Repr

/-- Little-endian byte encoding of one element bit pattern into `size`
bytes, as the memmap write leaves it on disk. -/
def encodeLE : Nat → Nat → List Nat
  | 0, _ => []
  | size + 1, v => v % 256 :: encodeLE size (v / 256)

/-- Little-endian byte decoding of one element. -/
def decodeLE : List Nat → Nat
  | [] => 0
  | b :: bs => b + 256 * decodeLE bs

/-- The byte content of the binary embeddings file after writing `data`
with dtype `d`: each element serialised to `d.itemsize` bytes, row-major. -/
def bytesOfData (d : DType) (data : List Nat) : List Nat :=
  (data.map (encodeLE d.itemsize)).flatten

/-- Reinterpret a byte string as consecutive float32 (4-byte) elements,
as `np.memmap(..., dtype="float32")` does on the read path. -/
def decodeChunks4 : List Nat → List Nat
  | b0 :: b1 :: b2 :: b3 :: rest => decodeLE [b0, b1, b2, b3] :: decodeChunks4 rest
  | _ => []

/-- The pair of files behind one embeddings output path: `<name>.shape`
(the sidecar, holding the comma-separated dimensions) and `<name>` (the raw
binary).  `none` = the file does not exist. -/
structure EmbFiles where
  shape_file : Option (List Nat)
  bin_file : Option (List Nat)
deriving DecidableEq, Repr

/-- One line of the gzipped metadata JSONL file, the dictionary
`{"doc_id": ..., "title": ..., "text_chunk": ...}` built in `main`. -/
structure MetaEntry where
  doc_id : Int
  title : String
  text_chunk : String
deriving DecidableEq, Repr, Inhabited

/-- The ways `fetch_embedding_and_metadata` raises instead of returning. -/
inductive FetchError where
  /-- Raised when `open` of the shape sidecar fails: sidecar missing. -/
  | shapeFileNotFound
  /-- Raised when `np.memmap` in read mode fails: binary file missing. -/
  | binFileNotFound
  /-- indexing a 0-dimensional memmap raises. -/
  | emptyShape
  /-- Raised when `np.memmap` with the sidecar shape needs more bytes than the file has. -/
  | sizeMismatch
  /-- Raised by `memmap_array[idx]` with `idx` at or beyond the first
  dimension (`IndexError`). -/
  | indexOutOfRange
  /-- Raised when `gzip.open(metadata_file, "rt")` fails: metadata file missing. -/
  | metaFileNotFound
  /-- Raised when the metadata scan ends before line `idx`, so `metadata` is
  never bound and the `return` raises `UnboundLocalError`. -/
  | metadataNotFound
deriving DecidableEq, Repr

/-! ## Chunker (`reconstitute_sentences_into_chunks`) -/

/-- One row of the sentence dataframe produced by `process_documents`:
a `document_id` and one sentence of that document's text. -/
structure SentenceRow where
  document_id : Int
  text : String
deriving DecidableEq, Repr

/-- The loop state of `reconstitute_sentences_into_chunks`: the emitted
chunks, the running buffer `current_chunk`, its counter `current_length`
(which counts sentence characters only, not the separating spaces), and the
`document_id`/`title` variables (both `None` before the first row). -/
structure ChunkState where
  chunks : List (Int × String × String)
  current_chunk : String
  current_length : Nat
  last : Option (Int × String)
deriving DecidableEq, Repr

/-- One iteration of the `for _, row in df.iterrows()` loop.  Note the
order faithful to the source: `document_id`, `sentence` and `title` are
taken from the *current* row before the overflow test, so a chunk closed
here is tagged with the current row's id and title. -/
def chunk_step (ids_to_titles : Int → String) (chunk_size : Nat)
    (prepend_title_to_each_chunk : Bool) (truncate_long_chunks : Bool)
    (s : ChunkState) (row : SentenceRow) : ChunkState :=
  let document_id := row.document_id
  let sentence := row.text
  let title := ids_to_titles document_id
  if s.current_length + sentence.length > chunk_size then
    let new_chunk :=
      if prepend_title_to_each_chunk then title ++ ":\n" ++ sentence else sentence
    { chunks := s.chunks ++
        [(document_id, title,
          if truncate_long_chunks then s.current_chunk.take chunk_size
          else s.current_chunk)],
      current_chunk := new_chunk,
      current_length := new_chunk.length,
      last := some (document_id, title) }
  else
    { chunks := s.chunks,
      current_chunk :=
        if s.current_chunk = "" then sentence else s.current_chunk ++ " " ++ sentence,
      current_length := s.current_length + sentence.length,
      last := some (document_id, title) }

/-- The flush after the loop: `if current_chunk: chunks.append((document_id,
title, f"{title}:\n{current_chunk}"))`.  The `none` branch is unreachable
(a non-empty buffer implies at least one processed row). -/
def chunk_finalize (s : ChunkState) : List (Int × String × String) :=
  if s.current_chunk = "" then s.chunks
  else
    match s.last with
    | some (d, t) => s.chunks ++ [(d, t, t ++ ":\n" ++ s.current_chunk)]
    | none => s.chunks

/-- Definition of `reconstitute_sentences_into_chunks`: fold the loop body over the
dataframe rows, then flush the remaining buffer. -/
def reconstitute_sentences_into_chunks (df : List SentenceRow)
    (ids_to_titles : Int → String) (chunk_size : Nat := 512)
    (prepend_title_to_each_chunk : Bool := true)
    (truncate_long_chunks : Bool := false) : List (Int × String × String) :=
  chunk_finalize
    (df.foldl
      (chunk_step ids_to_titles chunk_size prepend_title_to_each_chunk
        truncate_long_chunks)
      ⟨[], "", 0, none⟩)

/-! ## Stores -/

/-- Definition of `save_embeddings_to_memmap`: overwrite the sidecar with this batch's
shape, then `np.memmap(file_name, dtype=embeddings.dtype, mode="w+",
shape=shape)` creates a fresh file of exactly this batch's size and the
full-slice copy fills it with this batch's bytes.  The previous state of
both files is discarded. -/
def save_embeddings_to_memmap (embeddings : NDArray) (_fs : EmbFiles) : EmbFiles :=
  { shape_file := some embeddings.shape,
    bin_file := some (bytesOfData embeddings.dtype embeddings.data) }

/-- Definition of `save_metadata_to_file`: `gzip.open(file_name, "at")` appends one JSON
line per entry, creating the file when absent. -/
def save_metadata_to_file (metadata : List MetaEntry)
    (file : Option (List MetaEntry)) : Option (List MetaEntry) :=
  some (file.getD [] ++ metadata)

/-- Definition of `fetch_embedding_and_metadata`: load the shape from the sidecar, open
the binary file as a read-only float32 memmap of that shape, take row
`idx`, then scan the metadata lines for line `idx`. -/
def fetch_embedding_and_metadata (embFiles : EmbFiles)
    (metaFile : Option (List MetaEntry)) (idx : Nat) :
    Except FetchError (List Nat × MetaEntry) :=
  match embFiles.shape_file with
  | none => .error .shapeFileNotFound
  | some shape =>
    match embFiles.bin_file with
    | none => .error .binFileNotFound
    | some bytes =>
      match shape with
      | [] => .error .emptyShape
      | rows :: rest =>
        let rowElems := rest.prod
        if bytes.length < rows * rowElems * 4 then .error .sizeMismatch
        else if rows ≤ idx then .error .indexOutOfRange
        else
          let embedding :=
            decodeChunks4 ((bytes.drop (idx * rowElems * 4)).take (rowElems * 4))
          match metaFile with
          | none => .error .metaFileNotFound
          | some lines =>
            match lines[idx]? with
            | none => .error .metadataNotFound
            | some metadata => .ok (embedding, metadata)

/-! ## Stream Reader (`stream_jsonl`) -/

/-- The fields of one input document `main` reads: `page_id`, `title`,
`text`. -/
structure DocRecord where
  page_id : Int
  title : String
  text : String
deriving DecidableEq, Repr

/-- One line of the gzipped JSONL input as `json.loads(line.strip())` sees
it: either malformed JSON, or a parsed object together with whether
`"page_id" in entry` holds. -/
inductive JsonLine where
  | malformed
  | parsed (has_page_id : Bool) (record : DocRecord)
deriving DecidableEq, Repr

/-- Definition of `stream_jsonl`: walk the lines in file order; a malformed line raises
`json.JSONDecodeError` out of the generator (no further yields), a parsed
line without `page_id` is skipped, any other line is yielded.  The result
is the list of yielded records paired with whether the walk aborted on a
parse error. -/
def stream_jsonl : List JsonLine → List DocRecord × Bool
  | [] => ([], false)
  | .malformed :: _ => ([], true)
  | .parsed has_page_id record :: rest =>
    let (yielded, aborted) := stream_jsonl rest
    if has_page_id then (record :: yielded, aborted) else (yielded, aborted)

/-- The records of the lines that parse and contain `page_id`, in file
order: what `stream_jsonl` yields on a well-formed file. -/
def streamYield (lines : List JsonLine) : List DocRecord :=
  lines.filterMap fun
    | .parsed true record => some record
    | _ => none

/-! ## Pipeline Driver (the loop of `main`)

`main` accumulates `document_ids`, `documents` and `ids_to_titles` from the
streamed records and flushes a batch whenever `len(document_ids) ==
batch_size`.  Two collaborators are external to this file's source and kept
as parameters: `process_documents` (sentence segmentation, imported from
`sciphi.llm.embedding_helpers`) and `model.encode` (the sentence
transformer).  The driver's behaviour under test is independent of both. -/

/-- Python dict assignment `d[k] = v` on an insertion-ordered association
list: overwrite the existing key or append. -/
def dictInsert (l : List (Int × String)) (k : Int) (v : String) :
    List (Int × String) :=
  if l.any (fun p => p.1 = k) then
    l.map (fun p => if p.1 = k then (k, v) else p)
  else l ++ [(k, v)]

/-- Python dict lookup `d[k]`.  Every lookup the pipeline performs is on a
key previously inserted, so the `KeyError` case is modelled by a default. -/
def dictGet (l : List (Int × String)) (k : Int) : String :=
  ((l.find? (fun p => p.1 = k)).map (fun p => p.2)).getD ""

/-- The mutable state of `main`'s loop: the three per-batch accumulators
and the two persistent store files. -/
structure DriverState where
  document_ids : List Int
  documents : List String
  ids_to_titles : List (Int × String)
  emb : EmbFiles
  meta : Option (List MetaEntry)
deriving Repr

/-- The chunks of one flushed batch:
`reconstitute_sentences_into_chunks(process_documents(documents,
document_ids), ids_to_titles, chunk_size)` with the default flags. -/
def batchChunks (process_documents : List String → List Int → List SentenceRow)
    (chunk_size : Nat) (documents : List String) (document_ids : List Int)
    (ids_to_titles : List (Int × String)) : List (Int × String × String) :=
  reconstitute_sentences_into_chunks
    (process_documents documents document_ids) (dictGet ids_to_titles)
    chunk_size true false

/-- The metadata list of one flushed batch, in chunk order. -/
def batchMetadata (process_documents : List String → List Int → List SentenceRow)
    (chunk_size : Nat) (documents : List String) (document_ids : List Int)
    (ids_to_titles : List (Int × String)) : List MetaEntry :=
  (batchChunks process_documents chunk_size documents document_ids
      ids_to_titles).map
    (fun entry => ⟨entry.1, entry.2.1, entry.2.2⟩)

/-- The flush body of `main`: chunk, embed, persist to both stores, reset
the accumulators. -/
def flush_batch (process_documents : List String → List Int → List SentenceRow)
    (encode : List String → NDArray) (chunk_size : Nat) (s : DriverState) :
    DriverState :=
  let chunks := batchChunks process_documents chunk_size s.documents
    s.document_ids s.ids_to_titles
  let chunk_embedding := encode (chunks.map (fun entry => entry.2.2))
  { document_ids := [],
    documents := [],
    ids_to_titles := [],
    emb := save_embeddings_to_memmap chunk_embedding s.emb,
    meta := save_metadata_to_file
      (batchMetadata process_documents chunk_size s.documents s.document_ids
        s.ids_to_titles)
      s.meta }

/-- One iteration of `for entry in stream_jsonl(file_path)`: push the
record's id, text and title, then flush iff the accumulated count equals
`batch_size`. -/
def driver_step (process_documents : List String → List Int → List SentenceRow)
    (encode : List String → NDArray) (chunk_size batch_size : Nat)
    (s : DriverState) (entry : DocRecord) : DriverState :=
  let s' : DriverState :=
    { s with
      document_ids := s.document_ids ++ [entry.page_id],
      documents := s.documents ++ [entry.text],
      ids_to_titles := dictInsert s.ids_to_titles entry.page_id entry.title }
  if s'.document_ids.length = batch_size then
    flush_batch process_documents encode chunk_size s'
  else s'

/-- The loop of `main` run over the streamed records, starting from empty
accumulators and fresh (absent) output files. -/
def main_loop (process_documents : List String → List Int → List SentenceRow)
    (encode : List String → NDArray) (chunk_size batch_size : Nat)
    (records : List DocRecord) : DriverState :=
  records.foldl (driver_step process_documents encode chunk_size batch_size)
    ⟨[], [], [], ⟨none, none⟩, none⟩

/-! ## Helper definitions and lemmas -/

/-- The tail of a space-join: a leading space before every piece. -/
def spJoin : List String → String
  | [] => ""
  | t :: ts => " " ++ t ++ spJoin ts

/-- The pieces joined by single spaces, `"t₁ t₂ ... tₙ"`. -/
def joinSp : List String → String
  | [] => ""
  | t :: ts => t ++ spJoin ts

lemma string_length_data (s : String) : s.length = s.data.length := rfl

lemma string_ne_empty_of_length_pos {s : String} (h : 0 < s.length) : s ≠ "" := by
  intro he
  rw [he] at h
  simp [string_length_data] at h

lemma string_length_take_le (s : String) (n : Nat) : (s.take n).length ≤ n := by
  rw [string_length_data, String.data_take]
  exact List.length_take_le n s.data

lemma string_length_pos_of_ne_empty {s : String} (h : s ≠ "") : 0 < s.length := by
  rw [string_length_data]
  rcases Nat.eq_zero_or_pos s.data.length with h0 | h0
  · exact absurd (String.ext (by simpa using List.length_eq_zero.mp h0)) h
  · exact h0

lemma append_text_ne_empty {buf t : String} (h : t ≠ "") : buf ++ t ≠ "" := by
  apply string_ne_empty_of_length_pos
  have ht := string_length_pos_of_ne_empty h
  rw [String.length_append]
  omega

lemma sum_map_le_of_cons {r : SentenceRow} {tl : List SentenceRow} {len cs : Nat}
    (h : len + ((r :: tl).map (fun x => x.text.length)).sum ≤ cs) :
    len + r.text.length ≤ cs ∧
      (len + r.text.length) + (tl.map (fun x => x.text.length)).sum ≤ cs := by
  simp [List.map_cons, List.sum_cons] at h
  omega

/-- Folding the loop body over rows of a single document `d`, all with
non-empty text, starting from a non-empty buffer and a counter that will
never overflow: no chunk is emitted and the buffer grows by the
space-separated sentences. -/
lemma chunk_fold_single_doc (ids_to_titles : Int → String) (chunk_size : Nat)
    (prepend tru : Bool) (d : Int) :
    ∀ (rest : List SentenceRow) (chs : List (Int × String × String))
      (buf : String) (len : Nat),
      buf ≠ "" →
      (∀ r ∈ rest, r.document_id = d) →
      (∀ r ∈ rest, r.text ≠ "") →
      len + (rest.map (fun r => r.text.length)).sum ≤ chunk_size →
      rest.foldl (chunk_step ids_to_titles chunk_size prepend tru)
          ⟨chs, buf, len, some (d, ids_to_titles d)⟩
        = ⟨chs, buf ++ spJoin (rest.map (fun r => r.text)),
            len + (rest.map (fun r => r.text.length)).sum,
            some (d, ids_to_titles d)⟩
  | [], chs, buf, len, _hbuf, _hd, _ht, _hlen => by
    simp [spJoin, String.append_empty]
  | r :: tl, chs, buf, len, hbuf, hd, ht, hlen => by
    obtain ⟨h1, h2⟩ := sum_map_le_of_cons hlen
    have hno : ¬ (len + r.text.length > chunk_size) := by omega
    have hrd : r.document_id = d := hd r (by simp)
    have step_eq : chunk_step ids_to_titles chunk_size prepend tru
        ⟨chs, buf, len, some (d, ids_to_titles d)⟩ r
        = ⟨chs, buf ++ " " ++ r.text, len + r.text.length,
            some (d, ids_to_titles d)⟩ := by
      simp [chunk_step, if_neg hno, hbuf, hrd]
    have hbuf' : buf ++ " " ++ r.text ≠ "" := by
      rw [String.append_assoc]
      apply append_text_ne_empty
      apply string_ne_empty_of_length_pos
      have hsp : (" " : String).length = 1 := rfl
      rw [String.length_append, hsp]
      omega
    have ih := chunk_fold_single_doc ids_to_titles chunk_size prepend tru d tl
      chs (buf ++ " " ++ r.text) (len + r.text.length) hbuf'
      (fun x hx => hd x (by simp [hx])) (fun x hx => ht x (by simp [hx])) h2
    rw [List.foldl_cons, step_eq, ih]
    simp [spJoin, String.append_assoc]
    omega

lemma encodeLE_length (n v : Nat) : (encodeLE n v).length = n := by
  induction n generalizing v with
  | zero => rfl
  | succ k ih => simp [encodeLE, ih]

lemma decodeLE_encodeLE (n v : Nat) : decodeLE (encodeLE n v) = v % 256 ^ n := by
  induction n generalizing v with
  | zero => simp [encodeLE, decodeLE, Nat.mod_one]
  | succ k ih =>
    simp only [encodeLE, decodeLE, ih]
    rw [pow_succ', Nat.mod_mul]

lemma decodeLE_encodeLE_of_lt {n v : Nat} (h : v < 256 ^ n) :
    decodeLE (encodeLE n v) = v := by
  rw [decodeLE_encodeLE, Nat.mod_eq_of_lt h]

lemma bytesOfData_length (d : DType) (vs : List Nat) :
    (bytesOfData d vs).length = vs.length * d.itemsize := by
  simp only [bytesOfData, List.length_flatten, List.map_map]
  have : (List.map (List.length ∘ encodeLE d.itemsize) vs)
      = List.replicate vs.length d.itemsize := by
    rw [← List.map_const]
    exact List.map_congr_left fun v _ => by simp [encodeLE_length]
  rw [this, List.sum_replicate, smul_eq_mul]

lemma itemsize_ge_four (d : DType) : 4 ≤ d.itemsize := by
  cases d <;> simp [DType.itemsize]

lemma flatten_map_encode4_drop (k : Nat) (vs : List Nat) :
    ((vs.map (encodeLE 4)).flatten).drop (4 * k)
      = ((vs.drop k).map (encodeLE 4)).flatten := by
  induction k generalizing vs with
  | zero => simp
  | succ m ih =>
    cases vs with
    | nil => simp
    | cons v tl =>
      have hlen : (encodeLE 4 v).length = 4 := encodeLE_length 4 v
      have h4 : 4 * (m + 1) = (encodeLE 4 v).length + 4 * m := by omega
      simp only [List.map_cons, List.flatten_cons, h4, List.drop_append, List.drop_succ_cons]
      exact ih tl

lemma flatten_map_encode4_take (k : Nat) (vs : List Nat) :
    ((vs.map (encodeLE 4)).flatten).take (4 * k)
      = ((vs.take k).map (encodeLE 4)).flatten := by
  induction k generalizing vs with
  | zero => simp
  | succ m ih =>
    cases vs with
    | nil => simp
    | cons v tl =>
      have hlen : (encodeLE 4 v).length = 4 := encodeLE_length 4 v
      have h4 : 4 * (m + 1) = (encodeLE 4 v).length + 4 * m := by omega
      simp only [List.map_cons, List.flatten_cons, h4, List.take_append,
        List.take_succ_cons]
      rw [ih tl]

lemma decodeChunks4_flatten_encode (vs : List Nat) (h : ∀ v ∈ vs, v < 2 ^ 32) :
    decodeChunks4 ((vs.map (encodeLE 4)).flatten) = vs := by
  induction vs with
  | nil => rfl
  | cons v tl ih =>
    have hv : v < 256 ^ 4 := by
      have := h v (by simp)
      norm_num at this ⊢
      omega
    have htl : decodeChunks4 ((tl.map (encodeLE 4)).flatten) = tl :=
      ih fun x hx => h x (by simp [hx])
    show decodeChunks4 ((encodeLE 4 v) ++ (tl.map (encodeLE 4)).flatten) = v :: tl
    simp only [encodeLE, Nat.zero_lt_succ]
    show decodeLE [v % 256, v / 256 % 256, v / 256 / 256 % 256,
        v / 256 / 256 / 256 % 256] :: decodeChunks4 ((tl.map (encodeLE 4)).flatten)
      = v :: tl
    rw [htl]
    have : decodeLE [v % 256, v / 256 % 256, v / 256 / 256 % 256,
        v / 256 / 256 / 256 % 256] = v := by
      simp only [decodeLE]
      omega
    rw [this]

lemma stream_jsonl_clean (lines : List JsonLine)
    (h : ∀ l ∈ lines, l ≠ JsonLine.malformed) :
    stream_jsonl lines = (streamYield lines, false) := by
  induction lines with
  | nil => rfl
  | cons l rest ih =>
    cases l with
    | malformed => exact absurd rfl (h .malformed (by simp))
    | parsed b r =>
      have := ih fun x hx => h x (by simp [hx])
      cases b <;> simp [stream_jsonl, streamYield, List.filterMap_cons, this]

lemma stream_jsonl_abort (pre post : List JsonLine)
    (h : ∀ l ∈ pre, l ≠ JsonLine.malformed) :
    stream_jsonl (pre ++ JsonLine.malformed :: post) = (streamYield pre, true) := by
  induction pre with
  | nil => rfl
  | cons l rest ih =>
    cases l with
    | malformed => exact absurd rfl (h .malformed (by simp))
    | parsed b r =>
      have := ih fun x hx => h x (by simp [hx])
      cases b <;> simp [stream_jsonl, streamYield, List.filterMap_cons, this]

/-! ## Claims -/

/-- C9.  The Stream Reader `stream_jsonl` yields, in file order, exactly the records of the
lines that parse as JSON objects containing a `page_id` field (lines
without `page_id` are silently skipped); a line that is not valid JSON
aborts the generator with a propagated parse failure, yielding nothing past
the lines before it. -/
theorem c9_stream_filters_and_propagates :
    (∀ lines : List JsonLine, (∀ l ∈ lines, l ≠ JsonLine.malformed) →
      stream_jsonl lines = (streamYield lines, false))
    ∧ (∀ pre post : List JsonLine, (∀ l ∈ pre, l ≠ JsonLine.malformed) →
      stream_jsonl (pre ++ JsonLine.malformed :: post) = (streamYield pre, true)) :=
  ⟨stream_jsonl_clean, stream_jsonl_abort⟩

/-- Witness for C9 at a concrete file: a three-line well-formed file whose
middle line lacks `page_id`, and a file whose second line is malformed. -/
theorem c9_witness :
    stream_jsonl [.parsed true ⟨1, "t1", "x"⟩, .parsed false ⟨2, "t2", "y"⟩,
        .parsed true ⟨3, "t3", "z"⟩]
      = ([⟨1, "t1", "x"⟩, ⟨3, "t3", "z"⟩], false)
    ∧ stream_jsonl ([.parsed true ⟨1, "t1", "x"⟩] ++ JsonLine.malformed ::
        [.parsed true ⟨2, "t2", "y"⟩])
      = ([⟨1, "t1", "x"⟩], true) :=
  ⟨(c9_stream_filters_and_propagates.1 _ (by decide)).trans (by decide),
   (c9_stream_filters_and_propagates.2 _ _ (by decide)).trans (by decide)⟩

/-- C1.  Two consecutive `save_embeddings_to_memmap` calls to the same
path, first with a `(3, 768)` array and then with a `(2, 768)` array,
leave the sidecar and the binary file describing only the second batch:
the result is identical to saving the second batch alone (the first batch
is discarded, not extended), the sidecar holds `2,768`, and the binary file
holds exactly the second batch's `2 * 768` float32 elements. -/
theorem c1_append_overwrites (a1 a2 : NDArray) (fs : EmbFiles)
    (_h1 : a1.shape = [3, 768]) (h2 : a2.shape = [2, 768])
    (hd : a2.data.length = 2 * 768) (hf : a2.dtype = .float32) :
    save_embeddings_to_memmap a2 (save_embeddings_to_memmap a1 fs)
      = save_embeddings_to_memmap a2 fs
    ∧ (save_embeddings_to_memmap a2 (save_embeddings_to_memmap a1 fs)).shape_file
      = some [2, 768]
    ∧ (save_embeddings_to_memmap a2
        (save_embeddings_to_memmap a1 fs)).bin_file
      = some (bytesOfData .float32 a2.data)
    ∧ ∀ bytes,
        (save_embeddings_to_memmap a2 (save_embeddings_to_memmap a1 fs)).bin_file
          = some bytes → bytes.length = 2 * 768 * 4 := by
  refine ⟨rfl, by simp [save_embeddings_to_memmap, h2], by
    simp [save_embeddings_to_memmap, hf], ?_⟩
  intro bytes hb
  simp [save_embeddings_to_memmap] at hb
  rw [← hb, bytesOfData_length, hd, hf]
  rfl

/-- Witness for C1 at concrete `(3, 768)` and `(2, 768)` zero arrays. -/
theorem c1_witness :
    save_embeddings_to_memmap
        ⟨.float32, [2, 768], List.replicate (2 * 768) 0⟩
        (save_embeddings_to_memmap
          ⟨.float32, [3, 768], List.replicate (3 * 768) 0⟩ ⟨none, none⟩)
      = save_embeddings_to_memmap
          ⟨.float32, [2, 768], List.replicate (2 * 768) 0⟩ ⟨none, none⟩
    ∧ (save_embeddings_to_memmap
        ⟨.float32, [2, 768], List.replicate (2 * 768) 0⟩
        (save_embeddings_to_memmap
          ⟨.float32, [3, 768], List.replicate (3 * 768) 0⟩ ⟨none, none⟩)).shape_file
      = some [2, 768]
    ∧ (save_embeddings_to_memmap
        ⟨.float32, [2, 768], List.replicate (2 * 768) 0⟩
        (save_embeddings_to_memmap
          ⟨.float32, [3, 768], List.replicate (3 * 768) 0⟩ ⟨none, none⟩)).bin_file
      = some (bytesOfData .float32 (List.replicate (2 * 768) 0))
    ∧ ∀ bytes,
        (save_embeddings_to_memmap
          ⟨.float32, [2, 768], List.replicate (2 * 768) 0⟩
          (save_embeddings_to_memmap
            ⟨.float32, [3, 768], List.replicate (3 * 768) 0⟩
            ⟨none, none⟩)).bin_file = some bytes →
          bytes.length = 2 * 768 * 4 :=
  c1_append_overwrites _ _ _ rfl rfl (List.length_replicate (2 * 768) 0) rfl

/-- C3 counterexample.  With `chunk_size = 5`, a 4-character sentence of
document 1 followed by a 2-character sentence of document 2: the buffer
holding document 1's sentence closes when document 2's sentence arrives,
yet the emitted chunk is tagged `(2, "T2")` — the *triggering* row's id and
title — not `(1, "T1")` as the claim states. -/
theorem c3_counterexample :
    reconstitute_sentences_into_chunks [⟨1, "aaaa"⟩, ⟨2, "bb"⟩]
        (fun i => if i = 1 then "T1" else "T2") 5 false false
      = [(2, "T2", "aaaa"), (2, "T2", "T2:\nbb")]
    ∧ (((2 : Int), "T2") ≠ ((1 : Int), "T1")) := by
  exact ⟨by decide, by decide⟩

/-- C3 (amended).  Whenever processing a Sentence Row closes the running
buffer because `current_length + len(sentence) > chunk_size`, the emitted
Chunk is tagged with the document id and title of the row that *triggered*
the close (the current row), because the loop assigns `document_id` and
`title` from the current row before testing the overflow condition; the
chunk's text is the previous buffer (truncated when requested). -/
theorem c3_close_tags_current_row (ids_to_titles : Int → String)
    (chunk_size : Nat) (prepend tru : Bool) (s : ChunkState)
    (row : SentenceRow)
    (h : s.current_length + row.text.length > chunk_size) :
    (chunk_step ids_to_titles chunk_size prepend tru s row).chunks
      = s.chunks ++ [(row.document_id, ids_to_titles row.document_id,
          if tru then s.current_chunk.take chunk_size else s.current_chunk)] := by
  simp [chunk_step, if_pos h]

/-- Witness for the amended C3 at the counterexample's closing step. -/
theorem c3_witness :
    (chunk_step (fun i => if i = 1 then "T1" else "T2") 5 false false
        ⟨[], "aaaa", 4, some (1, "T1")⟩ ⟨2, "bb"⟩).chunks
      = [] ++ [((2 : Int), "T2", "aaaa")] :=
  c3_close_tags_current_row (fun i => if i = 1 then "T1" else "T2") 5 false false
    ⟨[], "aaaa", 4, some (1, "T1")⟩ ⟨2, "bb"⟩ (by decide)

/-- C4 counterexample.  Two one-sentence documents whose total length fits
in one chunk: the Chunker emits a *single* chunk `"T2:\na b"` that mixes
document 1's sentence `"a"` with document 2's sentence `"b"` (and tags it
with document 2), refuting the claim that every chunk holds sentences of
exactly one document and that a new chunk begins on a document change. -/
theorem c4_counterexample :
    reconstitute_sentences_into_chunks [⟨1, "a"⟩, ⟨2, "b"⟩]
        (fun i => if i = 1 then "T1" else "T2") 512 true false
      = [(2, "T2", "T2:\na b")]
    ∧ (reconstitute_sentences_into_chunks [⟨1, "a"⟩, ⟨2, "b"⟩]
        (fun i => if i = 1 then "T1" else "T2") 512 true false).length = 1 := by
  exact ⟨by decide, by decide⟩

/-- C4 (amended).  Chunk boundaries are decided solely by the character
count: whenever `current_length + len(sentence) ≤ chunk_size` the sentence
is appended to the running buffer — no chunk is closed — regardless of
whether the row's `document_id` differs from that of the buffered
sentences.  Hence a Chunk may contain sentences from more than one
document; the Chunker never begins a new chunk merely because the input
moved to a different document. -/
theorem c4_no_document_boundary (ids_to_titles : Int → String)
    (chunk_size : Nat) (prepend tru : Bool) (s : ChunkState)
    (row : SentenceRow)
    (h : s.current_length + row.text.length ≤ chunk_size) :
    (chunk_step ids_to_titles chunk_size prepend tru s row).chunks = s.chunks
    ∧ (chunk_step ids_to_titles chunk_size prepend tru s row).current_chunk
      = (if s.current_chunk = "" then row.text
         else s.current_chunk ++ " " ++ row.text) := by
  have hno : ¬ (s.current_length + row.text.length > chunk_size) := by omega
  exact ⟨by simp [chunk_step, if_neg hno], by simp [chunk_step, if_neg hno]⟩

/-- Witness for the amended C4: document 2's sentence joins document 1's
buffer. -/
theorem c4_witness :
    (chunk_step (fun i => if i = 1 then "T1" else "T2") 512 true false
        ⟨[], "a", 1, some (1, "T1")⟩ ⟨2, "b"⟩).chunks = []
    ∧ (chunk_step (fun i => if i = 1 then "T1" else "T2") 512 true false
        ⟨[], "a", 1, some (1, "T1")⟩ ⟨2, "b"⟩).current_chunk
      = (if ("a" : String) = "" then "b" else "a" ++ " " ++ "b") :=
  c4_no_document_boundary (fun i => if i = 1 then "T1" else "T2") 512 true false
    ⟨[], "a", 1, some (1, "T1")⟩ ⟨2, "b"⟩ (by decide)

/-- C7 counterexample.  One document, one sentence `"ab"`, total length 2 ≤
chunk_size, and `prepend_title_to_each_chunk = False`: the claim says the
single chunk's text has no title prefix (it should be `"ab"`), but the
final flush always prepends the title, producing `"T:\nab"`. -/
theorem c7_counterexample :
    reconstitute_sentences_into_chunks [⟨1, "ab"⟩] (fun _ => "T") 512 false false
      = [(1, "T", "T:\nab")]
    ∧ ("T:\nab" : String) ≠ "ab" := by
  exact ⟨by decide, by decide⟩

/-- C7 (amended).  For every non-empty sequence of Sentence Rows all of one
document `d`, each with non-empty text, whose total character count is at
most `chunk_size`, the Chunker produces exactly one Chunk, tagged `(d,
title)`, whose text is the title, `":\n"`, then all the sentences joined by
single spaces — the title prefix appears for *both* values of
`prepend_title_to_each_chunk`, because the final flush always prepends it. -/
theorem c7_single_doc_one_chunk (rows : List SentenceRow)
    (ids_to_titles : Int → String) (chunk_size : Nat) (prepend tru : Bool)
    (d : Int) (hne : rows ≠ [])
    (hd : ∀ r ∈ rows, r.document_id = d)
    (ht : ∀ r ∈ rows, r.text ≠ "")
    (hlen : (rows.map (fun r => r.text.length)).sum ≤ chunk_size) :
    reconstitute_sentences_into_chunks rows ids_to_titles chunk_size prepend tru
      = [(d, ids_to_titles d,
          ids_to_titles d ++ ":\n" ++ joinSp (rows.map (fun r => r.text)))] := by
  match rows, hne with
  | r :: tl, _ =>
    obtain ⟨h1, h2⟩ := @sum_map_le_of_cons r tl 0 chunk_size (by simpa using hlen)
    have hno : ¬ (0 + r.text.length > chunk_size) := by omega
    have hrd : r.document_id = d := hd r (by simp)
    have hrt : r.text ≠ "" := ht r (by simp)
    have step_eq : chunk_step ids_to_titles chunk_size prepend tru
        ⟨[], "", 0, none⟩ r
        = ⟨[], r.text, 0 + r.text.length, some (d, ids_to_titles d)⟩ := by
      simp only [chunk_step, if_neg hno]
      simp [hrd]
    have fold_eq := chunk_fold_single_doc ids_to_titles chunk_size prepend tru d
      tl [] r.text (0 + r.text.length) hrt
      (fun x hx => hd x (by simp [hx])) (fun x hx => ht x (by simp [hx])) h2
    have hbuf : r.text ++ spJoin (tl.map (fun x => x.text)) ≠ "" := by
      apply string_ne_empty_of_length_pos
      have := string_length_pos_of_ne_empty hrt
      rw [String.length_append]
      omega
    rw [reconstitute_sentences_into_chunks, List.foldl_cons, step_eq, fold_eq,
      chunk_finalize]
    simp [hbuf, joinSp]

/-- Witness for the amended C7: two sentences of document 1, flag off, one
chunk `"T:\nab cd"`. -/
theorem c7_witness :
    reconstitute_sentences_into_chunks [⟨1, "ab"⟩, ⟨1, "cd"⟩] (fun _ => "T")
        512 false false
      = [(1, "T", "T:\nab cd")] :=
  (c7_single_doc_one_chunk [⟨1, "ab"⟩, ⟨1, "cd"⟩] (fun _ => "T") 512 false false
    1 (by decide) (by decide) (by decide) (by decide)).trans (by decide)

lemma chunk_fold_truncate_bound (ids_to_titles : Int → String)
    (chunk_size : Nat) (prepend : Bool) :
    ∀ (rows : List SentenceRow) (s : ChunkState),
      (∀ c ∈ s.chunks, c.2.2.length ≤ chunk_size) →
      ∀ c ∈ (rows.foldl (chunk_step ids_to_titles chunk_size prepend true)
        s).chunks, c.2.2.length ≤ chunk_size
  | [], s, hs => hs
  | r :: tl, s, hs => by
    rw [List.foldl_cons]
    apply chunk_fold_truncate_bound ids_to_titles chunk_size prepend tl
    intro c hc
    by_cases hcond : s.current_length + r.text.length > chunk_size
    · simp only [chunk_step, if_pos hcond, List.mem_append,
        List.mem_singleton] at hc
      rcases hc with hc | hc
      · exact hs c hc
      · subst hc
        exact string_length_take_le s.current_chunk chunk_size
    · simp only [chunk_step, if_neg hcond] at hc
      exact hs c hc

/-- C8.  With `truncate_long_chunks` set: (1) every Chunk the loop closes
mid-stream has its text truncated to at most `chunk_size` characters;
(2) the Chunk flushed after the loop is the full buffer with a title
prefix, not truncated by any `chunk_size`; (3) concretely, one 6-character
sentence at `chunk_size = 3` yields an (empty, truncated) mid-stream chunk
and a final flushed chunk of 9 characters, exceeding `chunk_size`. -/
theorem c8_truncation_asymmetry :
    (∀ (ids_to_titles : Int → String) (chunk_size : Nat) (prepend : Bool)
      (rows : List SentenceRow) (s : ChunkState),
      (∀ c ∈ s.chunks, c.2.2.length ≤ chunk_size) →
      ∀ c ∈ (rows.foldl (chunk_step ids_to_titles chunk_size prepend true)
        s).chunks, c.2.2.length ≤ chunk_size)
    ∧ (∀ (s : ChunkState) (d : Int) (t : String), s.last = some (d, t) →
        s.current_chunk ≠ "" →
        chunk_finalize s = s.chunks ++ [(d, t, t ++ ":\n" ++ s.current_chunk)])
    ∧ reconstitute_sentences_into_chunks [⟨1, "abcdef"⟩] (fun _ => "T") 3
        false true
      = [(1, "T", ""), (1, "T", "T:\nabcdef")]
    ∧ 3 < ("T:\nabcdef" : String).length := by
  refine ⟨chunk_fold_truncate_bound, ?_, by decide, by decide⟩
  intro s d t hlast hne
  rw [chunk_finalize, if_neg hne, hlast]

/-- Witness for C8: the mid-stream chunk `"abc"` produced at
`chunk_size = 3` from two 4-character sentences is within the bound, and
the final flush of a concrete state is the untruncated buffer. -/
theorem c8_witness :
    (((1 : Int), "T", "abc") ∈
      (([⟨1, "abcd"⟩, ⟨1, "efgh"⟩] : List SentenceRow).foldl
        (chunk_step (fun _ => "T") 3 false true) ⟨[], "", 0, none⟩).chunks →
      ("abc" : String).length ≤ 3)
    ∧ chunk_finalize ⟨[], "abcdef", 6, some (1, "T")⟩
      = [] ++ [((1 : Int), "T", "T" ++ ":\n" ++ "abcdef")] :=
  ⟨fun hm => c8_truncation_asymmetry.1 (fun _ => "T") 3 false
      [⟨1, "abcd"⟩, ⟨1, "efgh"⟩] ⟨[], "", 0, none⟩ (by simp) _ hm,
   c8_truncation_asymmetry.2.1 ⟨[], "abcdef", 6, some (1, "T")⟩ 1 "T" rfl
     (by decide)⟩

lemma bytesOfData_float32 (vs : List Nat) :
    bytesOfData .float32 vs = (vs.map (encodeLE 4)).flatten := rfl

/-- C5.  Round-trip for one batch written to fresh files: after appending
an `N × d` float32 batch to the Embedding Store and its `N` metadata
entries to the Metadata Store, fetching any index `i < N` returns exactly
row `i` of the saved array and the metadata entry written at position `i`. -/
theorem c5_roundtrip (a : NDArray) (ms : List MetaEntry) (fs : EmbFiles)
    (N d i : Nat) (hf : a.dtype = .float32) (hshape : a.shape = [N, d])
    (hlen : a.data.length = N * d) (hbound : ∀ v ∈ a.data, v < 2 ^ 32)
    (hm : ms.length = N) (hi : i < N) :
    fetch_embedding_and_metadata (save_embeddings_to_memmap a fs)
        (save_metadata_to_file ms none) i
      = .ok ((a.data.drop (i * d)).take d, ms.get ⟨i, by omega⟩) := by
  have h1 : save_embeddings_to_memmap a fs
      = ⟨some [N, d], some ((a.data.map (encodeLE 4)).flatten)⟩ := by
    rw [save_embeddings_to_memmap, hshape, hf, bytesOfData_float32]
  have h2 : save_metadata_to_file ms none = some ms := by
    simp [save_metadata_to_file]
  have hblen : ((a.data.map (encodeLE 4)).flatten).length = N * d * 4 := by
    rw [← bytesOfData_float32, bytesOfData_length, hlen]
    rfl
  rw [h1, h2]
  simp only [fetch_embedding_and_metadata, List.prod_cons, List.prod_nil,
    mul_one, hblen]
  rw [if_neg (by omega), if_neg (by omega)]
  rw [show i * d * 4 = 4 * (i * d) by ring, flatten_map_encode4_drop,
    show d * 4 = 4 * d by ring, flatten_map_encode4_take,
    decodeChunks4_flatten_encode _ (fun v hv =>
      hbound v (List.mem_of_mem_drop (List.mem_of_mem_take hv)))]
  simp [List.getElem?_eq_getElem (by omega : i < ms.length)]

/-- Witness for C5: a concrete `2 × 2` batch with two metadata entries,
fetched at index 1. -/
theorem c5_witness :
    fetch_embedding_and_metadata
        (save_embeddings_to_memmap ⟨.float32, [2, 2], [10, 20, 30, 40]⟩
          ⟨none, none⟩)
        (save_metadata_to_file [⟨1, "t", "c"⟩, ⟨2, "u", "d"⟩] none) 1
      = .ok ((([10, 20, 30, 40] : List Nat).drop (1 * 2)).take 2,
          ([⟨1, "t", "c"⟩, ⟨2, "u", "d"⟩] : List MetaEntry).get ⟨1, by decide⟩) :=
  c5_roundtrip ⟨.float32, [2, 2], [10, 20, 30, 40]⟩ [⟨1, "t", "c"⟩, ⟨2, "u", "d"⟩]
    ⟨none, none⟩ 2 2 1 rfl rfl rfl (by decide) rfl (by decide)

/-- C6.  Out-of-range fetches fail rather than return data: (1) with both
stores holding `N` records, any `idx ≥ N` hits the `IndexError` of
`memmap_array[idx]` (the row index exceeds the sidecar's first dimension);
(2) when the metadata file is the short one (fewer lines than `idx + 1`
while the embedding rows suffice), the metadata scan ends without binding
`metadata` and the fetch fails with the unbound-local error. -/
theorem c6_fetch_out_of_range :
    (∀ (a : NDArray) (ms : List MetaEntry) (fs : EmbFiles) (N d idx : Nat),
      a.shape = [N, d] → a.data.length = N * d → N ≤ idx →
      fetch_embedding_and_metadata (save_embeddings_to_memmap a fs)
        (save_metadata_to_file ms none) idx = .error .indexOutOfRange)
    ∧ (∀ (a : NDArray) (ms : List MetaEntry) (fs : EmbFiles) (N d idx : Nat),
      a.shape = [N, d] → a.data.length = N * d → idx < N → ms.length ≤ idx →
      fetch_embedding_and_metadata (save_embeddings_to_memmap a fs)
        (save_metadata_to_file ms none) idx = .error .metadataNotFound) := by
  constructor
  · intro a ms fs N d idx hshape hlen hidx
    have h1 : save_embeddings_to_memmap a fs
        = ⟨some [N, d], some (bytesOfData a.dtype a.data)⟩ := by
      rw [save_embeddings_to_memmap, hshape]
    have h2 : save_metadata_to_file ms none = some ms := by
      simp [save_metadata_to_file]
    have hblen : (bytesOfData a.dtype a.data).length = N * d * a.dtype.itemsize := by
      rw [bytesOfData_length, hlen]
    have hsz : N * d * 4 ≤ N * d * a.dtype.itemsize :=
      Nat.mul_le_mul_left (N * d) (itemsize_ge_four a.dtype)
    rw [h1, h2]
    simp only [fetch_embedding_and_metadata, List.prod_cons, List.prod_nil,
      mul_one, hblen]
    rw [if_neg (by omega), if_pos hidx]
  · intro a ms fs N d idx hshape hlen hidx hms
    have h1 : save_embeddings_to_memmap a fs
        = ⟨some [N, d], some (bytesOfData a.dtype a.data)⟩ := by
      rw [save_embeddings_to_memmap, hshape]
    have h2 : save_metadata_to_file ms none = some ms := by
      simp [save_metadata_to_file]
    have hblen : (bytesOfData a.dtype a.data).length = N * d * a.dtype.itemsize := by
      rw [bytesOfData_length, hlen]
    have hsz : N * d * 4 ≤ N * d * a.dtype.itemsize :=
      Nat.mul_le_mul_left (N * d) (itemsize_ge_four a.dtype)
    rw [h1, h2]
    simp only [fetch_embedding_and_metadata, List.prod_cons, List.prod_nil,
      mul_one, hblen]
    rw [if_neg (by omega), if_neg (by omega)]
    simp [List.getElem?_eq_none hms]

/-- Witness for C6: a `2 × 2` store fetched at index 2, and a store whose
metadata file has a single line fetched at index 1. -/
theorem c6_witness :
    fetch_embedding_and_metadata
        (save_embeddings_to_memmap ⟨.float32, [2, 2], [10, 20, 30, 40]⟩
          ⟨none, none⟩)
        (save_metadata_to_file [⟨1, "t", "c"⟩, ⟨2, "u", "d"⟩] none) 2
      = .error .indexOutOfRange
    ∧ fetch_embedding_and_metadata
        (save_embeddings_to_memmap ⟨.float32, [2, 2], [10, 20, 30, 40]⟩
          ⟨none, none⟩)
        (save_metadata_to_file [⟨1, "t", "c"⟩] none) 1
      = .error .metadataNotFound :=
  ⟨c6_fetch_out_of_range.1 ⟨.float32, [2, 2], [10, 20, 30, 40]⟩
      [⟨1, "t", "c"⟩, ⟨2, "u", "d"⟩] ⟨none, none⟩ 2 2 2 rfl rfl (by decide),
   c6_fetch_out_of_range.2 ⟨.float32, [2, 2], [10, 20, 30, 40]⟩
      [⟨1, "t", "c"⟩] ⟨none, none⟩ 2 2 1 rfl rfl (by decide) (by decide)⟩

/-- C10.  The sidecar records only the dimensions (never the dtype); the
binary file is written with the input array's own dtype, while the fetch
path always reinterprets the bytes as float32.  Under the unstated
precondition that the saved dtype is float32 the bytes decode back to the
stored elements; with a float64 array the fetch succeeds but returns a
vector different from the stored one (here bit pattern `2^32` comes back
as `0`). -/
theorem c10_sidecar_has_no_dtype :
    (∀ (a : NDArray) (fs : EmbFiles),
      (save_embeddings_to_memmap a fs).shape_file = some a.shape)
    ∧ (∀ (a : NDArray) (fs : EmbFiles),
      (save_embeddings_to_memmap a fs).bin_file
        = some (bytesOfData a.dtype a.data))
    ∧ (∀ vs : List Nat, (∀ v ∈ vs, v < 2 ^ 32) →
      decodeChunks4 (bytesOfData .float32 vs) = vs)
    ∧ fetch_embedding_and_metadata
        (save_embeddings_to_memmap ⟨.float64, [1, 1], [2 ^ 32]⟩ ⟨none, none⟩)
        (save_metadata_to_file [⟨7, "t", "c"⟩] none) 0
      = .ok ([0], ⟨7, "t", "c"⟩)
    ∧ ([0] : List Nat) ≠ [2 ^ 32] := by
  refine ⟨fun a fs => rfl, fun a fs => rfl, ?_, by rfl, by decide⟩
  intro vs h
  rw [bytesOfData_float32]
  exact decodeChunks4_flatten_encode vs h

/-- Witness for C10's float32 conjunct at a concrete one-element array. -/
theorem c10_witness :
    decodeChunks4 (bytesOfData .float32 [5]) = [5] :=
  c10_sidecar_has_no_dtype.2.2.1 [5] (by decide)

/-- C2.  The Pipeline Driver flushes exactly when the accumulated record
count equals `batch_size` — the step either flushes (count hits
`batch_size`) or merely accumulates — and a trailing partial batch is never
flushed: with `batch_size = 2` and exactly 5 streamed documents, the run
persists precisely the two full batches `[r1, r2]` and `[r3, r4]` to both
stores, while the fifth document's data remains only in the in-memory
accumulators (and the Embedding Store additionally holds only the last
flushed batch, per its overwrite semantics). -/
theorem c2_trailing_batch_dropped :
    (∀ (process_documents : List String → List Int → List SentenceRow)
      (encode : List String → NDArray) (chunk_size batch_size : Nat)
      (s : DriverState) (e : DocRecord),
      (s.document_ids.length + 1 = batch_size →
        driver_step process_documents encode chunk_size batch_size s e
          = flush_batch process_documents encode chunk_size
              { s with
                document_ids := s.document_ids ++ [e.page_id],
                documents := s.documents ++ [e.text],
                ids_to_titles := dictInsert s.ids_to_titles e.page_id e.title })
      ∧ (s.document_ids.length + 1 ≠ batch_size →
        driver_step process_documents encode chunk_size batch_size s e
          = { s with
              document_ids := s.document_ids ++ [e.page_id],
              documents := s.documents ++ [e.text],
              ids_to_titles := dictInsert s.ids_to_titles e.page_id e.title }))
    ∧ (∀ (process_documents : List String → List Int → List SentenceRow)
      (encode : List String → NDArray) (chunk_size : Nat)
      (r1 r2 r3 r4 r5 : DocRecord),
      main_loop process_documents encode chunk_size 2 [r1, r2, r3, r4, r5]
        = { document_ids := [r5.page_id],
            documents := [r5.text],
            ids_to_titles := [(r5.page_id, r5.title)],
            emb := save_embeddings_to_memmap
              (encode ((batchChunks process_documents chunk_size
                  [r3.text, r4.text] [r3.page_id, r4.page_id]
                  (dictInsert (dictInsert [] r3.page_id r3.title)
                    r4.page_id r4.title)).map (fun c => c.2.2)))
              (save_embeddings_to_memmap
                (encode ((batchChunks process_documents chunk_size
                    [r1.text, r2.text] [r1.page_id, r2.page_id]
                    (dictInsert (dictInsert [] r1.page_id r1.title)
                      r2.page_id r2.title)).map (fun c => c.2.2)))
                ⟨none, none⟩),
            meta := some
              (batchMetadata process_documents chunk_size
                  [r1.text, r2.text] [r1.page_id, r2.page_id]
                  (dictInsert (dictInsert [] r1.page_id r1.title)
                    r2.page_id r2.title)
                ++ batchMetadata process_documents chunk_size
                  [r3.text, r4.text] [r3.page_id, r4.page_id]
                  (dictInsert (dictInsert [] r3.page_id r3.title)
                    r4.page_id r4.title)) }) := by
  constructor
  · intro process_documents encode chunk_size batch_size s e
    constructor
    · intro h
      rw [driver_step]
      simp only [List.length_append, List.length_cons, List.length_nil]
      rw [if_pos (by omega)]
    · intro h
      rw [driver_step]
      simp only [List.length_append, List.length_cons, List.length_nil]
      rw [if_neg (by omega)]
  · intro process_documents encode chunk_size r1 r2 r3 r4 r5
    rfl

/-- Witness for C2's step characterisation: with one record accumulated and
`batch_size = 2`, the next record triggers a flush; with none accumulated
it does not. -/
theorem c2_witness :
    driver_step (fun _ _ => []) (fun _ => ⟨.float32, [], []⟩) 512 2
        ⟨[9], ["x"], [(9, "T")], ⟨none, none⟩, none⟩ ⟨8, "U", "y"⟩
      = flush_batch (fun _ _ => []) (fun _ => ⟨.float32, [], []⟩) 512
          ⟨[9] ++ [(8 : Int)], ["x"] ++ ["y"],
            dictInsert [(9, "T")] 8 "U", ⟨none, none⟩, none⟩
    ∧ driver_step (fun _ _ => []) (fun _ => ⟨.float32, [], []⟩) 512 2
        ⟨[], [], [], ⟨none, none⟩, none⟩ ⟨8, "U", "y"⟩
      = ⟨[] ++ [(8 : Int)], [] ++ ["y"], dictInsert [] 8 "U",
          ⟨none, none⟩, none⟩ :=
  ⟨(c2_trailing_batch_dropped.1 (fun _ _ => []) (fun _ => ⟨.float32, [], []⟩)
      512 2 ⟨[9], ["x"], [(9, "T")], ⟨none, none⟩, none⟩ ⟨8, "U", "y"⟩).1 rfl,
   (c2_trailing_batch_dropped.1 (fun _ _ => []) (fun _ => ⟨.float32, [], []⟩)
      512 2 ⟨[], [], [], ⟨none, none⟩, none⟩ ⟨8, "U", "y"⟩).2 (by decide)⟩
